import Mathlib

/-!
Verification development for the log4tiny printf-style format-string parser
(`src/format_parser.hpp`).

Embedding conventions:
* A C++ `std::string_view` is a `List Char`; `format.substr(k)` is `List.drop k`.
* The source's consumer functions dereference `*format.cbegin()` without a
  bounds check; per the source's own comment ("In case of out-of-bound read
  exception is thrown that can be caught and handled accordingly") an access
  past the end raises an exception that `parse_first_placeholder` catches.
  We model this with the `Except Unit` monad: `.error ()` is the thrown
  exception, `.ok none` is a consumer's "no match", `.ok (some rest)` a
  successful consumption.
* `std::optional<std::string_view>` return values become `Option (List Char)`.
-/

deriving instance DecidableEq for Except

namespace log4tiny

namespace matcher

/-- Modelled from the spec: the repository's `type_matcher.hpp` is not part of
the provided source. Section 3 of the spec describes the type matcher as a
closed variant tagged by category (`SignedInt`, `UnsignedInt`, `Floating`,
`Char`, `String`, `Pointer`, `Unconstrained`), with a default-constructed
`matcher::PlaceholderType{}` (used for the `%n` specifier) carrying no type
requirement, i.e. `Unconstrained`. Constructor names follow the C++ type
names `SignedIntType`, `UnsignedIntType`, `FloatingType`, `CharType`,
`StringType`, `PointerType`. -/
inductive PlaceholderType where
  | SignedIntType
  | UnsignedIntType
  | FloatingType
  | CharType
  | StringType
  | PointerType
  | Unconstrained
deriving DecidableEq, Repr

end matcher

/-- `consume_character`: consume the first character if it equals `character`.
Dereferencing the begin iterator of an empty view throws (`.error ()`). -/
def consume_character (format : List Char) (character : Char) :
    Except Unit (Option (List Char)) :=
  match format with
  | [] => .error ()
  | c :: rest => if c = character then .ok (some rest) else .ok none

/-- `consume_character_from_range`: consume the first character if
`first_character <= x <= last_character`. -/
def consume_character_from_range (format : List Char)
    (first_character last_character : Char) : Except Unit (Option (List Char)) :=
  match format with
  | [] => .error ()
  | c :: rest =>
    if first_character ≤ c ∧ c ≤ last_character then .ok (some rest) else .ok none

/-- `consume_character_from_set`: consume the first character if it matches any
character in the given set (the C++ has a parameter-pack and a container
overload with identical semantics; both are modelled by a `List Char`). -/
def consume_character_from_set (format : List Char) (characters : List Char) :
    Except Unit (Option (List Char)) :=
  match format with
  | [] => .error ()
  | c :: rest => if c ∈ characters then .ok (some rest) else .ok none

/-- `consume_string`: consume the exact literal `string_to_consume` from the
front (`format.find(string_to_consume) == 0`). `find` never dereferences out
of bounds, so this consumer is total. -/
def consume_string (format : List Char) (string_to_consume : List Char) :
    Option (List Char) :=
  if string_to_consume.isPrefixOf format then
    some (format.drop string_to_consume.length)
  else
    none

/-- `consume_repeatedly`: apply a character consumer until it reports no match;
an exception from the consumer propagates. The C++ guard returns the input
when the consumer made no progress (`return_value.value() == format`); every
consumer in this file returns a suffix of its input, for which that guard is
equivalent to the length-based guard used here (needed for termination). -/
def consume_repeatedly (function : List Char → Except Unit (Option (List Char)))
    (format : List Char) : Except Unit (List Char) :=
  match function format with
  | .error e => .error e
  | .ok none => .ok format
  | .ok (some return_value) =>
    if _h : return_value.length < format.length then
      consume_repeatedly function return_value
    else
      .ok format
termination_by format.length

/-- `consume_start_character`: consume the leading `%`. -/
def consume_start_character (format : List Char) :
    Except Unit (Option (List Char)) :=
  consume_character format '%'

/-- `consume_flags_if_any`: strip a single flag character if present
(`substring.value_or(format)`); an out-of-bound read propagates. -/
def consume_flags_if_any (format : List Char) : Except Unit (List Char) :=
  match consume_character_from_set format ['+', '-', ' ', '#', '0'] with
  | .error e => .error e
  | .ok substring => .ok (substring.getD format)

/-- Return type of `consume_width_if_any` (local struct `ReturnValue`). -/
structure ConsumeWidthReturnValue where
  substring : List Char
  width_type_matcher : Option matcher.PlaceholderType
deriving DecidableEq, Repr

/-- `consume_width_if_any`: a `*` width records one extra `UnsignedIntType`
argument; otherwise a (possibly empty) run of decimal digits is consumed.
The C++ `else if` on `consume_repeatedly` always takes the branch when no
exception is thrown, since `consume_repeatedly` returns an engaged optional;
the final fallback `return` is dead code. -/
def consume_width_if_any (format : List Char) :
    Except Unit ConsumeWidthReturnValue :=
  match consume_character format '*' with
  | .error e => .error e
  | .ok (some additional_argument_substring) =>
    .ok ⟨additional_argument_substring, some .UnsignedIntType⟩
  | .ok none =>
    match consume_repeatedly
        (fun s => consume_character_from_range s '0' '9') format with
    | .error e => .error e
    | .ok substring => .ok ⟨substring, none⟩

/-- Return type of `consume_precision_if_any` (local struct `ReturnValue`). -/
structure ConsumePrecisionReturnValue where
  substring : List Char
  precision_type_matcher : Option matcher.PlaceholderType
deriving DecidableEq, Repr

/-- `consume_precision_if_any`: a leading `.` introduces a precision; `.∗`
records one extra `UnsignedIntType` argument, `.` followed by digits records
none. Without the `.` nothing is consumed. -/
def consume_precision_if_any (format : List Char) :
    Except Unit ConsumePrecisionReturnValue :=
  match consume_character format '.' with
  | .error e => .error e
  | .ok (some substring_without_precision_specifier) =>
    match consume_character substring_without_precision_specifier '*' with
    | .error e => .error e
    | .ok (some additional_argument_substring) =>
      .ok ⟨additional_argument_substring, some .UnsignedIntType⟩
    | .ok none =>
      match consume_repeatedly
          (fun s => consume_character_from_range s '0' '9')
          substring_without_precision_specifier with
      | .error e => .error e
      | .ok substring => .ok ⟨substring, none⟩
  | .ok none => .ok ⟨format, none⟩

/-- `enum class Specifier : char` — the eighteen specifier codes. -/
inductive Specifier where
  | d | i | u | o | x | X | f | F | e | E | g | G | a | A | c | s | p | n
deriving DecidableEq, Repr

/-- The `static_cast<char>` of a `Specifier` enumerator. -/
def Specifier.to_character : Specifier → Char
  | .d => 'd' | .i => 'i' | .u => 'u' | .o => 'o' | .x => 'x' | .X => 'X'
  | .f => 'f' | .F => 'F' | .e => 'e' | .E => 'E' | .g => 'g' | .G => 'G'
  | .a => 'a' | .A => 'A' | .c => 'c' | .s => 's' | .p => 'p' | .n => 'n'

/-- `specifiers_to_characters`: transform a specifier list to its characters. -/
def specifiers_to_characters (specifiers : List Specifier) : List Char :=
  specifiers.map Specifier.to_character

/-- `specifier_to_placeholder_type_matcher`: map a specifier character to the
type matcher it demands; `n` and any other character fall to the
default-constructed (`Unconstrained`) matcher. -/
def specifier_to_placeholder_type_matcher (specifier : Char) :
    matcher.PlaceholderType :=
  match specifier with
  | 'd' | 'i' => .SignedIntType
  | 'u' | 'o' | 'x' | 'X' => .UnsignedIntType
  | 'f' | 'F' | 'e' | 'E' | 'g' | 'G' | 'a' | 'A' => .FloatingType
  | 'c' => .CharType
  | 's' => .StringType
  | 'p' => .PointerType
  | _ => .Unconstrained

/-- Return type of `consume_length_if_any` (local struct `ReturnValue`). -/
structure ConsumeLengthReturnValue where
  substring : List Char
  allowed_specifiers : List Specifier
deriving DecidableEq, Repr

/-- `consume_length_if_any`: try `hh`, `ll`, `l`, `L`, then one of
`{h, j, z, t}`; each branch fixes the set of specifiers legal after it.
`consume_string` is total, but the single-character consumers can throw on an
empty view (the `hh`/`ll` lookups having failed). -/
def consume_length_if_any (format : List Char) :
    Except Unit ConsumeLengthReturnValue :=
  match consume_string format ['h', 'h'] with
  | some substring => .ok ⟨substring, [.d, .i, .u, .o, .x, .X, .n]⟩
  | none =>
  match consume_string format ['l', 'l'] with
  | some substring => .ok ⟨substring, [.d, .i, .u, .o, .x, .X, .n]⟩
  | none =>
  match consume_character format 'l' with
  | .error e => .error e
  | .ok (some substring) => .ok ⟨substring, [.d, .i, .u, .o, .x, .X, .c, .s, .n]⟩
  | .ok none =>
  match consume_character format 'L' with
  | .error e => .error e
  | .ok (some substring) => .ok ⟨substring, [.f, .F, .e, .E, .g, .G, .a, .A]⟩
  | .ok none =>
  match consume_character_from_set format ['h', 'j', 'z', 't'] with
  | .error e => .error e
  | .ok (some substring) => .ok ⟨substring, [.d, .i, .u, .o, .x, .X, .n]⟩
  | .ok none =>
    .ok ⟨format, [.d, .i, .u, .o, .x, .X, .f, .F, .e, .E, .g, .G,
                  .a, .A, .c, .s, .p, .n]⟩

/-- Return type of `consume_specifier` (local struct `Result`). -/
structure ConsumeSpecifierResult where
  substring : Option (List Char)
  placeholder_type_matcher : matcher.PlaceholderType
deriving DecidableEq, Repr

/-- `consume_specifier`: consume one character belonging to the allowed
specifier set and derive its type matcher (`format.front()` / `substr(1)`);
on a non-member first character report no substring and a default-constructed
matcher. -/
def consume_specifier (format : List Char)
    (allowed_specifiers : List Specifier) : Except Unit ConsumeSpecifierResult :=
  let specifier_characters := specifiers_to_characters allowed_specifiers
  match consume_character_from_set format specifier_characters with
  | .error e => .error e
  | .ok (some _) =>
    match format with
    | specifier_character :: rest =>
      .ok ⟨some rest, specifier_to_placeholder_type_matcher specifier_character⟩
    | [] => .error ()  -- unreachable: the set consumer throws on an empty view
  | .ok none => .ok ⟨none, .Unconstrained⟩

/-- Return type of `parse_first_placeholder` (local struct `ReturnValue`).
`placeholder_length` is the `std::distance` from the start of the view to the
position just after the specifier, i.e. `format.length - rest.length`. -/
structure PlaceholderReturnValue where
  is_valid : Bool
  type_matchers : List matcher.PlaceholderType
  placeholder_length : Nat
deriving DecidableEq, Repr

/-- The body of `parse_first_placeholder`'s `try` block: consume the leading
`%`, then flags, width, precision, length, specifier in order, collecting the
width's extra matcher, then the precision's, then the specifier's. An
out-of-bound read in any stage propagates as `.error ()`. -/
def parse_first_placeholder_attempt (format : List Char) :
    Except Unit PlaceholderReturnValue :=
  match consume_start_character format with
  | .error e => .error e
  | .ok none => .ok ⟨false, [], 0⟩
  | .ok (some post_start_substring) =>
  match consume_flags_if_any post_start_substring with
  | .error e => .error e
  | .ok post_flags_substring =>
  match consume_width_if_any post_flags_substring with
  | .error e => .error e
  | .ok width_result =>
  match consume_precision_if_any width_result.substring with
  | .error e => .error e
  | .ok precision_result =>
  match consume_length_if_any precision_result.substring with
  | .error e => .error e
  | .ok length_result =>
  match consume_specifier length_result.substring
      length_result.allowed_specifiers with
  | .error e => .error e
  | .ok specifier_result =>
  match specifier_result.substring with
  | some post_specifier_substring =>
    .ok ⟨true,
      width_result.width_type_matcher.toList ++
        precision_result.precision_type_matcher.toList ++
        [specifier_result.placeholder_type_matcher],
      format.length - post_specifier_substring.length⟩
  | none => .ok ⟨false, [], 0⟩

/-- `parse_first_placeholder`: run the attempt inside `try { ... } catch`;
a thrown exception (and any non-valid fall-through) yields
`{is_valid = false, type_matchers = {}, placeholder_length = 0}`. -/
def parse_first_placeholder (format : List Char) : PlaceholderReturnValue :=
  match parse_first_placeholder_attempt format with
  | .ok return_value => return_value
  | .error _ => ⟨false, [], 0⟩

/-- `skip_escaped_starting_character`: if the view starts with `%%`, drop
exactly those two characters. -/
def skip_escaped_starting_character (format : List Char) : List Char :=
  match format with
  | '%' :: '%' :: rest => rest
  | _ => format

/-! ### Shape lemmas for the character consumers -/

lemma consume_character_ok_some {format rest : List Char} {character : Char}
    (h : consume_character format character = .ok (some rest)) :
    format = character :: rest := by
  cases format with
  | nil => simp [consume_character] at h
  | cons c t =>
    by_cases hc : c = character
    · subst hc
      simp [consume_character] at h
      rw [h]
    · simp [consume_character, hc] at h

lemma consume_character_ok_none {format : List Char} {character : Char}
    (h : consume_character format character = .ok none) :
    ∃ c t, format = c :: t ∧ c ≠ character := by
  cases format with
  | nil => simp [consume_character] at h
  | cons c t =>
    refine ⟨c, t, rfl, ?_⟩
    intro hc
    simp [consume_character, hc] at h

lemma consume_character_from_set_ok_some {format rest characters : List Char}
    (h : consume_character_from_set format characters = .ok (some rest)) :
    ∃ c, format = c :: rest ∧ c ∈ characters := by
  cases format with
  | nil => simp [consume_character_from_set] at h
  | cons c t =>
    by_cases hc : c ∈ characters
    · simp [consume_character_from_set, hc] at h
      exact ⟨c, by rw [h], hc⟩
    · simp [consume_character_from_set, hc] at h

lemma consume_string_some {format string_to_consume rest : List Char}
    (h : consume_string format string_to_consume = some rest) :
    rest.length ≤ format.length := by
  unfold consume_string at h
  split at h
  · cases h
    simp
  · cases h

lemma consume_repeatedly_le (function : List Char → Except Unit (Option (List Char))) :
    ∀ format rest : List Char,
      consume_repeatedly function format = .ok rest → rest.length ≤ format.length := by
  have key : ∀ (n : Nat) (format rest : List Char), format.length ≤ n →
      consume_repeatedly function format = .ok rest → rest.length ≤ format.length := by
    intro n
    induction n with
    | zero =>
      intro format rest hlen h
      unfold consume_repeatedly at h
      split at h
      · cases h
      · cases h; exact le_rfl
      · split at h
        · omega
        · cases h; exact le_rfl
    | succ n ih =>
      intro format rest hlen h
      unfold consume_repeatedly at h
      split at h
      · cases h
      · cases h; exact le_rfl
      · rename_i rv heq
        split at h
        · rename_i hlt
          have := ih rv rest (by omega) h
          omega
        · cases h; exact le_rfl
  intro format rest h
  exact key format.length format rest le_rfl h

/-! ### Per-stage lemmas: each grammar stage returns a suffix no longer than
its input, and the width/precision extra matchers can only be
`UnsignedIntType`. -/

lemma consume_flags_if_any_ok {format rest : List Char}
    (h : consume_flags_if_any format = .ok rest) : rest.length ≤ format.length := by
  unfold consume_flags_if_any at h
  split at h
  · cases h
  · rename_i o ho
    cases h
    cases o with
    | none => simp
    | some t =>
      obtain ⟨c, hc, _⟩ := consume_character_from_set_ok_some ho
      subst hc
      simp only [Option.getD, List.length_cons]
      omega

lemma consume_width_if_any_ok {format : List Char} {r : ConsumeWidthReturnValue}
    (h : consume_width_if_any format = .ok r) :
    r.substring.length ≤ format.length ∧
      (r.width_type_matcher = none ∨
        r.width_type_matcher = some .UnsignedIntType) := by
  unfold consume_width_if_any at h
  split at h
  · cases h
  · rename_i a ha
    cases h
    have := consume_character_ok_some ha
    subst this
    refine ⟨?_, Or.inr rfl⟩
    simp only [List.length_cons]
    omega
  · split at h
    · cases h
    · rename_i s hs
      cases h
      exact ⟨consume_repeatedly_le _ _ _ hs, Or.inl rfl⟩

lemma consume_precision_if_any_ok {format : List Char}
    {r : ConsumePrecisionReturnValue}
    (h : consume_precision_if_any format = .ok r) :
    r.substring.length ≤ format.length ∧
      (r.precision_type_matcher = none ∨
        r.precision_type_matcher = some .UnsignedIntType) := by
  unfold consume_precision_if_any at h
  split at h
  · cases h
  · rename_i s1 h1
    split at h
    · cases h
    · rename_i a ha
      cases h
      refine ⟨?_, Or.inr rfl⟩
      have e1 := consume_character_ok_some h1
      have e2 := consume_character_ok_some ha
      subst e1
      subst e2
      simp only [List.length_cons]
      omega
    · split at h
      · cases h
      · rename_i s hs
        cases h
        refine ⟨?_, Or.inl rfl⟩
        have hle := consume_repeatedly_le _ _ _ hs
        have e1 := consume_character_ok_some h1
        subst e1
        simp only [List.length_cons]
        omega
  · cases h
    exact ⟨le_rfl, Or.inl rfl⟩

lemma consume_length_if_any_ok {format : List Char} {r : ConsumeLengthReturnValue}
    (h : consume_length_if_any format = .ok r) :
    r.substring.length ≤ format.length := by
  unfold consume_length_if_any at h
  split at h
  · rename_i s hs
    cases h
    exact consume_string_some hs
  · split at h
    · rename_i s hs
      cases h
      exact consume_string_some hs
    · split at h
      · cases h
      · rename_i s hs
        cases h
        have := consume_character_ok_some hs
        subst this
        simp only [List.length_cons]
        omega
      · split at h
        · cases h
        · rename_i s hs
          cases h
          have := consume_character_ok_some hs
          subst this
          simp only [List.length_cons]
          omega
        · split at h
          · cases h
          · rename_i s hs
            cases h
            obtain ⟨c, hc, _⟩ := consume_character_from_set_ok_some hs
            subst hc
            simp only [List.length_cons]
            omega
          · cases h
            exact le_rfl

lemma consume_specifier_ok {format : List Char} {allowed : List Specifier}
    {r : ConsumeSpecifierResult}
    (h : consume_specifier format allowed = .ok r) {rest : List Char}
    (hr : r.substring = some rest) :
    ∃ c, format = c :: rest ∧ c ∈ specifiers_to_characters allowed ∧
      r.placeholder_type_matcher = specifier_to_placeholder_type_matcher c := by
  unfold consume_specifier at h
  cases format with
  | nil => simp [consume_character_from_set] at h
  | cons c t =>
    by_cases hmem : c ∈ specifiers_to_characters allowed
    · simp [consume_character_from_set, hmem] at h
      subst h
      cases hr
      exact ⟨c, rfl, hmem, rfl⟩
    · simp [consume_character_from_set, hmem] at h
      subst h
      cases hr

/-! ### The catch wrapper and the shape of a successful placeholder parse -/

lemma parse_first_placeholder_eq_of_ok {format : List Char}
    {rv : PlaceholderReturnValue}
    (ha : parse_first_placeholder_attempt format = .ok rv) :
    parse_first_placeholder format = rv := by
  unfold parse_first_placeholder
  rw [ha]

lemma parse_first_placeholder_eq_of_error {format : List Char} {e : Unit}
    (ha : parse_first_placeholder_attempt format = .error e) :
    parse_first_placeholder format = ⟨false, [], 0⟩ := by
  unfold parse_first_placeholder
  rw [ha]

lemma parse_first_placeholder_attempt_ok_valid {format : List Char}
    {rv : PlaceholderReturnValue}
    (ha : parse_first_placeholder_attempt format = .ok rv)
    (h : rv.is_valid = true) :
    ∃ (w p : Option matcher.PlaceholderType) (c : Char) (post : List Char),
      rv.type_matchers =
          w.toList ++ p.toList ++ [specifier_to_placeholder_type_matcher c] ∧
      (w = none ∨ w = some .UnsignedIntType) ∧
      (p = none ∨ p = some .UnsignedIntType) ∧
      (∃ sp : Specifier, c = sp.to_character) ∧
      rv.placeholder_length = format.length - post.length ∧
      post.length + 2 ≤ format.length := by
  unfold parse_first_placeholder_attempt at ha
  split at ha
  · cases ha
  · cases ha
    cases h
  · rename_i post_start hstart
    split at ha
    · cases ha
    · rename_i post_flags hflags
      split at ha
      · cases ha
      · rename_i wr hw
        split at ha
        · cases ha
        · rename_i pr hp
          split at ha
          · cases ha
          · rename_i lr hl
            split at ha
            · cases ha
            · rename_i sr hspec
              split at ha
              · rename_i post_spec hpost
                cases ha
                obtain ⟨hw_le, hw_m⟩ := consume_width_if_any_ok hw
                obtain ⟨hp_le, hp_m⟩ := consume_precision_if_any_ok hp
                have hl_le := consume_length_if_any_ok hl
                obtain ⟨c, hc_eq, hc_mem, hc_m⟩ := consume_specifier_ok hspec hpost
                have hfl_le := consume_flags_if_any_ok hflags
                unfold consume_start_character at hstart
                have hstart_eq := consume_character_ok_some hstart
                subst hstart_eq
                have hlsub : lr.substring.length = post_spec.length + 1 := by
                  rw [hc_eq]
                  simp
                refine ⟨wr.width_type_matcher, pr.precision_type_matcher, c,
                  post_spec, ?_, hw_m, hp_m, ?_, rfl, ?_⟩
                · simp [hc_m]
                · unfold specifiers_to_characters at hc_mem
                  obtain ⟨sp, _, hsp⟩ := List.mem_map.mp hc_mem
                  exact ⟨sp, hsp.symm⟩
                · simp only [List.length_cons]
                  omega
              · cases ha
                cases h

lemma parse_first_placeholder_valid_shape (format : List Char)
    (h : (parse_first_placeholder format).is_valid = true) :
    ∃ (w p : Option matcher.PlaceholderType) (c : Char) (post : List Char),
      (parse_first_placeholder format).type_matchers =
          w.toList ++ p.toList ++ [specifier_to_placeholder_type_matcher c] ∧
      (w = none ∨ w = some .UnsignedIntType) ∧
      (p = none ∨ p = some .UnsignedIntType) ∧
      (∃ sp : Specifier, c = sp.to_character) ∧
      (parse_first_placeholder format).placeholder_length =
          format.length - post.length ∧
      post.length + 2 ≤ format.length := by
  cases ha : parse_first_placeholder_attempt format with
  | error e =>
    rw [parse_first_placeholder_eq_of_error ha] at h
    cases h
  | ok rv =>
    rw [parse_first_placeholder_eq_of_ok ha] at h ⊢
    exact parse_first_placeholder_attempt_ok_valid ha h

/-- Forward progress: a valid placeholder consumed at least one character
(in fact at least two: the `%` and the specifier). -/
lemma parse_first_placeholder_progress (format : List Char) :
    (parse_first_placeholder format).is_valid = false ∨
      1 ≤ (parse_first_placeholder format).placeholder_length := by
  by_cases h : (parse_first_placeholder format).is_valid = true
  · right
    obtain ⟨w, p, c, post, _, _, _, _, hlen, hle⟩ :=
      parse_first_placeholder_valid_shape format h
    rw [hlen]
    omega
  · left
    exact Bool.eq_false_iff.mpr h

lemma skip_escaped_starting_character_le (format : List Char) :
    (skip_escaped_starting_character format).length ≤ format.length := by
  unfold skip_escaped_starting_character
  split
  · simp only [List.length_cons]
    omega
  · exact le_rfl

/-- The `while (not substring.empty())` loop of
`parse_format_to_placeholder_matchers`: on a valid placeholder append its
matchers and advance by its consumed length, otherwise advance by one
character; then skip a leading `%%` escape before the next test. The C++
binds the parse result once via structured bindings; `parse_first_placeholder`
is pure, so repeating the call denotes the same value. Termination is exactly
the source's forward-progress argument: a valid placeholder consumed at least
one character. -/
def parse_format_loop (substring : List Char)
    (result : List matcher.PlaceholderType) : List matcher.PlaceholderType :=
  if hempty : substring = [] then
    result
  else
    if hvalid : (parse_first_placeholder substring).is_valid then
      parse_format_loop
        (skip_escaped_starting_character
          (substring.drop (parse_first_placeholder substring).placeholder_length))
        (result ++ (parse_first_placeholder substring).type_matchers)
    else
      parse_format_loop
        (skip_escaped_starting_character (substring.drop 1)) result
termination_by substring.length
decreasing_by
  · have h1 := skip_escaped_starting_character_le
      (substring.drop (parse_first_placeholder substring).placeholder_length)
    have h2 : 1 ≤ (parse_first_placeholder substring).placeholder_length := by
      rcases parse_first_placeholder_progress substring with hc | hc
      · rw [hvalid] at hc
        cases hc
      · exact hc
    simp only [List.length_drop] at h1 ⊢
    have h4 : 0 < substring.length := List.length_pos.mpr hempty
    omega
  · have h1 := skip_escaped_starting_character_le (substring.drop 1)
    have h4 : 0 < substring.length := List.length_pos.mpr hempty
    simp only [List.length_drop] at h1 ⊢
    omega

/-- `parse_format_to_placeholder_matchers`: scan the whole format string,
starting (as the C++ does) by skipping a leading `%%` escape, and collect the
ordered matcher sequence. -/
def parse_format_to_placeholder_matchers (format : List Char) :
    List matcher.PlaceholderType :=
  parse_format_loop (skip_escaped_starting_character format) []

/-- Number of iterations the scanner's `while` loop performs from a given
(post-skip) remaining view; instrumentation for the termination bound. -/
def parse_format_loop_steps (substring : List Char) : Nat :=
  if hempty : substring = [] then
    0
  else
    if hvalid : (parse_first_placeholder substring).is_valid then
      1 + parse_format_loop_steps
        (skip_escaped_starting_character
          (substring.drop (parse_first_placeholder substring).placeholder_length))
    else
      1 + parse_format_loop_steps
        (skip_escaped_starting_character (substring.drop 1))
termination_by substring.length
decreasing_by
  · have h1 := skip_escaped_starting_character_le
      (substring.drop (parse_first_placeholder substring).placeholder_length)
    have h2 : 1 ≤ (parse_first_placeholder substring).placeholder_length := by
      rcases parse_first_placeholder_progress substring with hc | hc
      · rw [hvalid] at hc
        cases hc
      · exact hc
    have h4 : 0 < substring.length := List.length_pos.mpr hempty
    simp only [List.length_drop] at h1 ⊢
    omega
  · have h1 := skip_escaped_starting_character_le (substring.drop 1)
    have h4 : 0 < substring.length := List.length_pos.mpr hempty
    simp only [List.length_drop] at h1 ⊢
    omega

/-- Total loop iterations for a whole scan, including the initial escape skip
performed before the loop's first emptiness test. -/
def parse_format_steps (format : List Char) : Nat :=
  parse_format_loop_steps (skip_escaped_starting_character format)

/-- `verify_format_with_arguments`: the `static_assert` compares the number of
supplied variadic arguments (`sizeof...(T)`) with the number of matchers the
scan produced; compilation succeeds exactly on equality. -/
def verify_format_with_arguments (format : List Char)
    (number_of_arguments : Nat) : Bool :=
  number_of_arguments == (parse_format_to_placeholder_matchers format).length

/-- The scanner's loop runs at most `length` iterations: every iteration
advances by at least one character and the escape skip never lengthens the
view. -/
lemma parse_format_loop_steps_le : ∀ s : List Char,
    parse_format_loop_steps s ≤ s.length := by
  have key : ∀ (n : Nat) (s : List Char), s.length ≤ n →
      parse_format_loop_steps s ≤ s.length := by
    intro n
    induction n with
    | zero =>
      intro s hlen
      have hs : s = [] := List.eq_nil_of_length_eq_zero (by omega)
      subst hs
      simp [parse_format_loop_steps]
    | succ n ih =>
      intro s hlen
      unfold parse_format_loop_steps
      split
      · exact Nat.zero_le _
      · rename_i hne
        have hpos : 0 < s.length := List.length_pos.mpr hne
        split
        · rename_i hvalid
          have hprog : 1 ≤ (parse_first_placeholder s).placeholder_length := by
            rcases parse_first_placeholder_progress s with hc | hc
            · rw [hvalid] at hc
              cases hc
            · exact hc
          have h1 := skip_escaped_starting_character_le
            (s.drop (parse_first_placeholder s).placeholder_length)
          simp only [List.length_drop] at h1
          have h2 := ih (skip_escaped_starting_character
            (s.drop (parse_first_placeholder s).placeholder_length)) (by omega)
          omega
        · have h1 := skip_escaped_starting_character_le (s.drop 1)
          simp only [List.length_drop] at h1
          have h2 := ih (skip_escaped_starting_character (s.drop 1)) (by omega)
          omega
  intro s
  exact key s.length s le_rfl


/-- Any non-exceptional attempt result is either valid or the literal failure
record `{is_valid = false, type_matchers = {}, placeholder_length = 0}`. -/
lemma parse_first_placeholder_attempt_ok_cases {format : List Char}
    {rv : PlaceholderReturnValue}
    (ha : parse_first_placeholder_attempt format = .ok rv) :
    rv.is_valid = true ∨ rv = ⟨false, [], 0⟩ := by
  unfold parse_first_placeholder_attempt at ha
  split at ha
  · cases ha
  · cases ha
    exact Or.inr rfl
  · split at ha
    · cases ha
    · split at ha
      · cases ha
      · split at ha
        · cases ha
        · split at ha
          · cases ha
          · split at ha
            · cases ha
            · split at ha
              · cases ha
                exact Or.inl rfl
              · cases ha
                exact Or.inr rfl

/-- C1 (counterexample to the claim as stated): scanning `"100% sure %d"` does
not yield exactly `[SignedIntType]`. The `%` followed by `" sure"` is not
skipped as literal text: the space is a flag character and `s` a valid
specifier, so `"% s"` parses as a placeholder. -/
theorem scan_100_percent_sure_not_single_signed_int :
    parse_format_to_placeholder_matchers "100% sure %d".toList ≠
      [matcher.PlaceholderType.SignedIntType] := by
  have heval : parse_format_to_placeholder_matchers "100% sure %d".toList =
      [matcher.PlaceholderType.StringType,
       matcher.PlaceholderType.SignedIntType] := by
    simp [parse_format_to_placeholder_matchers, parse_format_loop,
      parse_first_placeholder, parse_first_placeholder_attempt,
      consume_start_character, consume_character, consume_flags_if_any,
      consume_character_from_set, consume_width_if_any, consume_repeatedly,
      consume_character_from_range, consume_precision_if_any,
      consume_length_if_any, consume_string, consume_specifier,
      specifiers_to_characters, Specifier.to_character,
      specifier_to_placeholder_type_matcher, skip_escaped_starting_character]
  rw [heval]
  decide

/-- C1 (amended): scanning `"100% sure %d"` yields
`[StringType, SignedIntType]`: the substring `"% s"` forms a valid placeholder
(space flag, `s` specifier) contributing `StringType`, and the trailing `%d`
contributes `SignedIntType`. -/
theorem scan_100_percent_sure_matchers :
    parse_format_to_placeholder_matchers "100% sure %d".toList =
      [matcher.PlaceholderType.StringType,
       matcher.PlaceholderType.SignedIntType] := by
  simp [parse_format_to_placeholder_matchers, parse_format_loop,
    parse_first_placeholder, parse_first_placeholder_attempt,
    consume_start_character, consume_character, consume_flags_if_any,
    consume_character_from_set, consume_width_if_any, consume_repeatedly,
    consume_character_from_range, consume_precision_if_any,
    consume_length_if_any, consume_string, consume_specifier,
    specifiers_to_characters, Specifier.to_character,
    specifier_to_placeholder_type_matcher, skip_escaped_starting_character]

/-- C2: the Placeholder Parser never lets an out-of-bound access escape: every
attempt either returns normally or its exception is caught and reported as the
malformed-placeholder record; scanning the one-character string `"%"` hits
such an access (the flags stage inspects an empty view), is caught, and the
whole scan returns the empty matcher sequence. -/
theorem scan_lone_percent_safe :
    parse_first_placeholder_attempt "%".toList = .error () ∧
    parse_first_placeholder "%".toList = ⟨false, [], 0⟩ ∧
    parse_format_to_placeholder_matchers "%".toList = [] ∧
    (∀ s : List Char,
      (∃ rv, parse_first_placeholder_attempt s = .ok rv ∧
        parse_first_placeholder s = rv) ∨
      (∃ e, parse_first_placeholder_attempt s = .error e ∧
        parse_first_placeholder s = ⟨false, [], 0⟩)) := by
  refine ⟨by decide, by decide, ?_, ?_⟩
  · simp [parse_format_to_placeholder_matchers, parse_format_loop,
      parse_first_placeholder, parse_first_placeholder_attempt,
      consume_start_character, consume_character, consume_flags_if_any,
      consume_character_from_set, consume_width_if_any, consume_repeatedly,
      consume_character_from_range, consume_precision_if_any,
      consume_length_if_any, consume_string, consume_specifier,
      specifiers_to_characters, Specifier.to_character,
      specifier_to_placeholder_type_matcher, skip_escaped_starting_character]
  · intro s
    cases ha : parse_first_placeholder_attempt s with
    | ok rv => exact Or.inl ⟨rv, rfl, parse_first_placeholder_eq_of_ok ha⟩
    | error e => exact Or.inr ⟨e, rfl, parse_first_placeholder_eq_of_error ha⟩

/-- C3: a valid placeholder's matchers are emitted in the order width-extra
(if any), precision-extra (if any), then the specifier-derived matcher, the
extras being `UnsignedIntType`; concretely `"%*.*f"` scans to
`[UnsignedIntType, UnsignedIntType, FloatingType]`. -/
theorem placeholder_matcher_order :
    parse_format_to_placeholder_matchers "%*.*f".toList =
      [matcher.PlaceholderType.UnsignedIntType,
       matcher.PlaceholderType.UnsignedIntType,
       matcher.PlaceholderType.FloatingType] ∧
    (∀ s : List Char, (parse_first_placeholder s).is_valid = false ∨
      ∃ (w p : Option matcher.PlaceholderType) (c : Char),
        (parse_first_placeholder s).type_matchers =
          w.toList ++ p.toList ++ [specifier_to_placeholder_type_matcher c] ∧
        (w = none ∨ w = some .UnsignedIntType) ∧
        (p = none ∨ p = some .UnsignedIntType)) := by
  constructor
  · simp [parse_format_to_placeholder_matchers, parse_format_loop,
      parse_first_placeholder, parse_first_placeholder_attempt,
      consume_start_character, consume_character, consume_flags_if_any,
      consume_character_from_set, consume_width_if_any, consume_repeatedly,
      consume_character_from_range, consume_precision_if_any,
      consume_length_if_any, consume_string, consume_specifier,
      specifiers_to_characters, Specifier.to_character,
      specifier_to_placeholder_type_matcher, skip_escaped_starting_character]
  · intro s
    by_cases h : (parse_first_placeholder s).is_valid = true
    · right
      obtain ⟨w, p, c, post, hm, hw, hp, _, _, _⟩ :=
        parse_first_placeholder_valid_shape s h
      exact ⟨w, p, c, hm, hw, hp⟩
    · exact Or.inl (Bool.eq_false_iff.mpr h)

/-- C4: the length modifier restricts the legal specifiers: `"%ld"` scans to
`[SignedIntType]`, `"%Lf"` to `[FloatingType]`, while `"%Ld"` is no valid
placeholder (`d` is not legal after `L`) — it contributes nothing and the
scanner moves past the `%`. -/
theorem length_modifier_restricts_specifiers :
    parse_format_to_placeholder_matchers "%ld".toList =
      [matcher.PlaceholderType.SignedIntType] ∧
    parse_format_to_placeholder_matchers "%Lf".toList =
      [matcher.PlaceholderType.FloatingType] ∧
    (parse_first_placeholder "%Ld".toList).is_valid = false ∧
    parse_format_to_placeholder_matchers "%Ld".toList = [] := by
  refine ⟨?_, ?_, ?_, ?_⟩ <;>
    simp [parse_format_to_placeholder_matchers, parse_format_loop,
      parse_first_placeholder, parse_first_placeholder_attempt,
      consume_start_character, consume_character, consume_flags_if_any,
      consume_character_from_set, consume_width_if_any, consume_repeatedly,
      consume_character_from_range, consume_precision_if_any,
      consume_length_if_any, consume_string, consume_specifier,
      specifiers_to_characters, Specifier.to_character,
      specifier_to_placeholder_type_matcher, skip_escaped_starting_character]

/-- C5: flags, width and precision default to consuming nothing when they do
not match; whenever every stage completes without an out-of-bound exception,
the placeholder is valid exactly when the specifier stage consumed a
specifier; and every failed parse reports the literal
`{is_valid = false, type_matchers = {}, placeholder_length = 0}`. -/
theorem only_specifier_failure_is_fatal :
    (∀ s : List Char, parse_first_placeholder s = ⟨false, [], 0⟩ ∨
      (parse_first_placeholder s).is_valid = true) ∧
    (∀ (c : Char) (rest : List Char),
      c ∉ (['+', '-', ' ', '#', '0'] : List Char) →
      consume_flags_if_any (c :: rest) = .ok (c :: rest)) ∧
    (∀ (c : Char) (rest : List Char), c ≠ '*' → ¬('0' ≤ c ∧ c ≤ '9') →
      consume_width_if_any (c :: rest) = .ok ⟨c :: rest, none⟩) ∧
    (∀ (c : Char) (rest : List Char), c ≠ '.' →
      consume_precision_if_any (c :: rest) = .ok ⟨c :: rest, none⟩) ∧
    (∀ (format post_start post_flags : List Char)
        (wr : ConsumeWidthReturnValue) (pr : ConsumePrecisionReturnValue)
        (lr : ConsumeLengthReturnValue) (sr : ConsumeSpecifierResult),
      consume_start_character format = .ok (some post_start) →
      consume_flags_if_any post_start = .ok post_flags →
      consume_width_if_any post_flags = .ok wr →
      consume_precision_if_any wr.substring = .ok pr →
      consume_length_if_any pr.substring = .ok lr →
      consume_specifier lr.substring lr.allowed_specifiers = .ok sr →
      ((parse_first_placeholder format).is_valid = true ↔
        sr.substring.isSome = true)) := by
  refine ⟨?_, ?_, ?_, ?_, ?_⟩
  · intro s
    cases ha : parse_first_placeholder_attempt s with
    | error e => exact Or.inl (parse_first_placeholder_eq_of_error ha)
    | ok rv =>
      rw [parse_first_placeholder_eq_of_ok ha]
      rcases parse_first_placeholder_attempt_ok_cases ha with h | h
      · exact Or.inr h
      · exact Or.inl (by rw [h])
  · intro c rest hc
    simp [consume_flags_if_any, consume_character_from_set, hc, Option.getD]
  · intro c rest h1 h2
    simp [consume_width_if_any, consume_character, consume_repeatedly,
      consume_character_from_range, h1, h2]
  · intro c rest h1
    simp [consume_precision_if_any, consume_character, h1]
  · intro format post_start post_flags wr pr lr sr h1 h2 h3 h4 h5 h6
    cases hs : sr.substring with
    | some post =>
      have hv : parse_first_placeholder format =
          ⟨true, wr.width_type_matcher.toList ++
            pr.precision_type_matcher.toList ++
            [sr.placeholder_type_matcher],
            format.length - post.length⟩ := by
        apply parse_first_placeholder_eq_of_ok
        simp only [parse_first_placeholder_attempt, h1, h2, h3, h4, h5, h6, hs]
      rw [hv]
      simp
    | none =>
      have hv : parse_first_placeholder format = ⟨false, [], 0⟩ := by
        apply parse_first_placeholder_eq_of_ok
        simp only [parse_first_placeholder_attempt, h1, h2, h3, h4, h5, h6, hs]
      rw [hv]
      simp

/-- C5 witness: all hypotheses of `only_specifier_failure_is_fatal` are
realized on the concrete format `"%d"` and the character `'d'`. -/
theorem only_specifier_failure_is_fatal_witness :
    consume_flags_if_any ['d'] = .ok ['d'] ∧
    consume_width_if_any ['d'] = .ok ⟨['d'], none⟩ ∧
    consume_precision_if_any ['d'] = .ok ⟨['d'], none⟩ ∧
    ((parse_first_placeholder "%d".toList).is_valid = true ↔
      (some ([] : List Char)).isSome = true) := by
  have h := only_specifier_failure_is_fatal
  refine ⟨h.2.1 'd' [] (by decide), h.2.2.1 'd' [] (by decide) (by decide),
    h.2.2.2.1 'd' [] (by decide), ?_⟩
  exact h.2.2.2.2 "%d".toList ['d'] ['d'] ⟨['d'], none⟩ ⟨['d'], none⟩
    ⟨['d'], [.d, .i, .u, .o, .x, .X, .f, .F, .e, .E, .g, .G,
             .a, .A, .c, .s, .p, .n]⟩
    ⟨some [], .SignedIntType⟩
    (by decide)
    (by decide)
    (by simp [consume_width_if_any, consume_character, consume_repeatedly,
      consume_character_from_range])
    (by simp [consume_precision_if_any, consume_character])
    (by decide)
    (by decide)

/-- C6: the Format Scanner terminates in at most `length format` loop steps;
every iteration makes forward progress (a valid placeholder consumed at least
one character, otherwise the scanner advances by exactly one), and a leading
`%%` escape is skipped by removing exactly two characters. -/
theorem scanner_terminates_linear :
    (∀ format : List Char, parse_format_steps format ≤ format.length) ∧
    (∀ s : List Char, (parse_first_placeholder s).is_valid = false ∨
      1 ≤ (parse_first_placeholder s).placeholder_length) ∧
    (∀ rest : List Char,
      skip_escaped_starting_character ('%' :: '%' :: rest) = rest) := by
  refine ⟨?_, parse_first_placeholder_progress, fun rest => rfl⟩
  intro format
  unfold parse_format_steps
  exact le_trans (parse_format_loop_steps_le _)
    (skip_escaped_starting_character_le _)

/-- C7: whenever the remaining view starts with the two-character escape `%%`,
the scanner's skip removes exactly those two characters and nothing else; the
skip leaves any other view untouched; and scanning `"%%d"` yields no
matchers. -/
theorem escaped_percent_skipped :
    (∀ rest : List Char,
      skip_escaped_starting_character ('%' :: '%' :: rest) = rest) ∧
    (∀ s : List Char, skip_escaped_starting_character s = s ∨
      ∃ rest, s = '%' :: '%' :: rest ∧
        skip_escaped_starting_character s = rest) ∧
    parse_format_to_placeholder_matchers "%%d".toList = [] := by
  refine ⟨fun rest => rfl, ?_, ?_⟩
  · intro s
    unfold skip_escaped_starting_character
    split
    · rename_i rest
      exact Or.inr ⟨rest, rfl, rfl⟩
    · exact Or.inl rfl
  · simp [parse_format_to_placeholder_matchers, parse_format_loop,
      parse_first_placeholder, parse_first_placeholder_attempt,
      consume_start_character, consume_character, consume_flags_if_any,
      consume_character_from_set, consume_width_if_any, consume_repeatedly,
      consume_character_from_range, consume_precision_if_any,
      consume_length_if_any, consume_string, consume_specifier,
      specifiers_to_characters, Specifier.to_character,
      specifier_to_placeholder_type_matcher, skip_escaped_starting_character]

/-- C8: the flag stage strips at most one flag character per invocation: it
either throws on an empty view, consumes nothing, or consumes exactly one
character from `{+, -, space, #, 0}`; in particular on the stacked flags
`"+-0d"` only the leading `+` is stripped. -/
theorem flags_consume_at_most_one :
    (∀ s : List Char,
      consume_flags_if_any s = .error () ∨
      consume_flags_if_any s = .ok s ∨
      ∃ (c : Char) (rest : List Char), s = c :: rest ∧
        c ∈ (['+', '-', ' ', '#', '0'] : List Char) ∧
        consume_flags_if_any s = .ok rest) ∧
    consume_flags_if_any ['+', '-', '0', 'd'] = .ok ['-', '0', 'd'] := by
  refine ⟨?_, by decide⟩
  intro s
  cases s with
  | nil => exact Or.inl rfl
  | cons c t =>
    by_cases hc : c ∈ (['+', '-', ' ', '#', '0'] : List Char)
    · refine Or.inr (Or.inr ⟨c, t, rfl, hc, ?_⟩)
      simp [consume_flags_if_any, consume_character_from_set, hc, Option.getD]
    · refine Or.inr (Or.inl ?_)
      simp [consume_flags_if_any, consume_character_from_set, hc, Option.getD]

/-- C9: verification succeeds exactly when the number of supplied arguments
equals the number of matchers in the scan result; `"%d %d"` produces two
matchers, so verifying it against one argument fails and against two
succeeds. -/
theorem verify_checks_argument_count :
    (∀ (format : List Char) (n : Nat),
      verify_format_with_arguments format n = true ↔
        n = (parse_format_to_placeholder_matchers format).length) ∧
    (parse_format_to_placeholder_matchers "%d %d".toList).length = 2 ∧
    verify_format_with_arguments "%d %d".toList 1 = false ∧
    verify_format_with_arguments "%d %d".toList 2 = true := by
  have heval : parse_format_to_placeholder_matchers ['%', 'd', ' ', '%', 'd'] =
      [matcher.PlaceholderType.SignedIntType,
       matcher.PlaceholderType.SignedIntType] := by
    simp [parse_format_to_placeholder_matchers, parse_format_loop,
      parse_first_placeholder, parse_first_placeholder_attempt,
      consume_start_character, consume_character, consume_flags_if_any,
      consume_character_from_set, consume_width_if_any, consume_repeatedly,
      consume_character_from_range, consume_precision_if_any,
      consume_length_if_any, consume_string, consume_specifier,
      specifiers_to_characters, Specifier.to_character,
      specifier_to_placeholder_type_matcher, skip_escaped_starting_character]
  refine ⟨?_, ?_, ?_, ?_⟩
  · intro format n
    simp [verify_format_with_arguments]
  · rw [show "%d %d".toList = ['%', 'd', ' ', '%', 'd'] from rfl, heval]
    rfl
  · simp [verify_format_with_arguments, heval]
  · simp [verify_format_with_arguments, heval]

/-- C10: every successful placeholder parse emits between one and three
matchers; all matchers before the last are `UnsignedIntType` (they come from a
`*` width or `*` precision) and the last is the one derived from the consumed
specifier character. -/
theorem placeholder_matcher_invariant :
    ∀ s : List Char, (parse_first_placeholder s).is_valid = true →
      (1 ≤ (parse_first_placeholder s).type_matchers.length ∧
        (parse_first_placeholder s).type_matchers.length ≤ 3) ∧
      (∀ m ∈ (parse_first_placeholder s).type_matchers.dropLast,
        m = matcher.PlaceholderType.UnsignedIntType) ∧
      (∃ c : Char, (∃ sp : Specifier, c = sp.to_character) ∧
        (parse_first_placeholder s).type_matchers.getLast? =
          some (specifier_to_placeholder_type_matcher c)) := by
  intro s h
  obtain ⟨w, p, c, post, hm, hw, hp, hsp, _, _⟩ :=
    parse_first_placeholder_valid_shape s h
  refine ⟨?_, ?_, ⟨c, hsp, ?_⟩⟩
  · rw [hm]
    rcases hw with rfl | rfl <;> rcases hp with rfl | rfl <;> simp
  · intro m hmem
    rw [hm, List.dropLast_concat] at hmem
    rcases hw with rfl | rfl <;> rcases hp with rfl | rfl <;>
      simp_all
  · rw [hm]
    exact List.getLast?_concat _

/-- C10 witness: the invariant holds at the concrete placeholder `"%d"`. -/
theorem placeholder_matcher_invariant_witness :
    (parse_first_placeholder "%d".toList).is_valid = true ∧
    ((1 ≤ (parse_first_placeholder "%d".toList).type_matchers.length ∧
      (parse_first_placeholder "%d".toList).type_matchers.length ≤ 3) ∧
     (∀ m ∈ (parse_first_placeholder "%d".toList).type_matchers.dropLast,
        m = matcher.PlaceholderType.UnsignedIntType) ∧
     (∃ c : Char, (∃ sp : Specifier, c = sp.to_character) ∧
        (parse_first_placeholder "%d".toList).type_matchers.getLast? =
          some (specifier_to_placeholder_type_matcher c))) := by
  have hv : (parse_first_placeholder "%d".toList).is_valid = true := by
    simp [parse_first_placeholder, parse_first_placeholder_attempt,
      consume_start_character, consume_character, consume_flags_if_any,
      consume_character_from_set, consume_width_if_any, consume_repeatedly,
      consume_character_from_range, consume_precision_if_any,
      consume_length_if_any, consume_string, consume_specifier,
      specifiers_to_characters, Specifier.to_character,
      specifier_to_placeholder_type_matcher]
  exact ⟨hv, placeholder_matcher_invariant "%d".toList hv⟩

end log4tiny
